import Mathlib

/-!
faxme: a shallow embedding of the webhook relay

Embedding conventions.

* A Go `string` is a Lean `String`; Go string equality is Lean equality.
* A Go function that may hit a runtime panic (nil-pointer dereference) returns an
  `Option`: `none` is the panic.
* A Go `error` result is an `Option String` (`none` is `nil`); a `(T, error)` result is
  an `Except String T`.
* External collaborators (file system plus JSON decoder, Twilio request validation,
  Twilio message sending) are explicit parameters collected in `Env`.
* Effects on the logger, the response writer and the messaging transport are recorded in
  explicit state.
-/

namespace Faxme

/-! ## Package `accounts` -/

/-- The Go struct `accounts.Account`. -/
structure Account where
  FaxNumber : String
  Contacts : List String
deriving DecidableEq, Repr

/-- The Go struct `accounts.Accounts`: the field `acnts` is a `map[string]*Account`,
read as a finite partial function (`none` is the missing key, for which a Go map
lookup yields the nil pointer). -/
structure Accounts where
  acnts : String → Option Account

/-- The Go function `accounts.NewAccounts`: the empty map. -/
def NewAccounts : Accounts :=
  ⟨fun _ => none⟩

/-- The Go map assignment `a.acnts[key] = val`. -/
def Accounts.store (a : Accounts) (key : String) (val : Account) : Accounts :=
  ⟨fun k => if k = key then some val else a.acnts k⟩

/-- What `ioutil.ReadFile` followed by `json.Unmarshal(b, &a)` with `a : []*Account`
yields for a path: an error, or the decoded slice of pointers, where a JSON `null`
element decodes to the nil pointer (`none`). -/
abbrev FileSystem := String → Except String (List (Option Account))

/-- The loop `for _, acnt := range a { acnts.acnts[acnt.FaxNumber] = acnt }` of
`ReadFile`; reading `acnt.FaxNumber` through a nil pointer panics. -/
def ReadFile.loop : List (Option Account) → Accounts → Option Accounts
  | [], acnts => some acnts
  | none :: _, _ => none
  | some acnt :: rest, acnts => ReadFile.loop rest (acnts.store acnt.FaxNumber acnt)

/-- The Go function `accounts.ReadFile`. -/
def ReadFile (fs : FileSystem) (path : String) : Option (Except String Accounts) :=
  match fs path with
  | .error err => some (.error err)
  | .ok a =>
    match ReadFile.loop a NewAccounts with
    | none => none
    | some acnts => some (.ok acnts)

/-- The Go method `(*Accounts).Find` on a non-nil receiver: `a.acnts[fax]`. -/
def Accounts.Find (a : Accounts) (fax : String) : Option Account :=
  a.acnts fax

/-- The Go method `(*Accounts).Add`. -/
def Accounts.Add (a : Accounts) (fax : String) (contacts : List String) : Accounts :=
  a.store fax { FaxNumber := fax, Contacts := contacts }

/-! ## Package `main`: configuration, logger, server state -/

/-- The Go struct `Config`. -/
structure Config where
  HTTPBindAddress : String
  HTTPPort : String
  HTTPUser : String
  HTTPPwd : String
  TLSCertFile : String
  TLSKeyFile : String
  Unsafe : Bool
  FaxNumber : String
  SMSNumber : String
  AccountsFile : String
  TwilioSID : String
  TwilioToken : String
  SkipRequestValidation : Bool
deriving DecidableEq, Repr

/-- Severity of a log entry (`Logger.Info`, `Logger.Warn`, `Logger.Error`). -/
inductive Level where
  | info
  | warn
  | error
deriving DecidableEq, Repr

/-- A structured field of a log entry (`zap.String`, `zap.Int64`, `zap.Int`,
`zap.Error`). -/
inductive Field where
  | str (key val : String)
  | int64 (key : String) (val : Int)
  | int (key : String) (val : Int)
  | err (val : String)
deriving DecidableEq, Repr

/-- One call to the logger. -/
structure Entry where
  level : Level
  msg : String
  fields : List Field
deriving DecidableEq, Repr

/-- The Go struct `server`. The logger is the list of entries emitted so far, oldest
first; `acnts` is a pointer, nil (`none`) until the first successful load; the mutex
`mu` has no sequential content. -/
structure server where
  cfg : Config
  log : List Entry
  logid : Int
  acnts : Option Accounts

/-- Two's-complement wrap of an `int64`. -/
def wrapInt64 (x : Int) : Int :=
  (x + 2 ^ 63) % 2 ^ 64 - 2 ^ 63

/-- The Go function `newServer`. -/
def newServer (cfg : Config) : server :=
  { cfg := cfg, log := [], logid := 0, acnts := none }

/-- The Go method `server.nextLogID`: `atomic.AddInt64(&s.logid, 1)`. -/
def server.nextLogID (s : server) : Int × server :=
  let n := wrapInt64 (s.logid + 1)
  (n, { s with logid := n })

/-- The call `s.log.Info(msg, fields...)`. -/
def server.Info (s : server) (msg : String) (fields : List Field) : server :=
  { s with log := s.log ++ [{ level := .info, msg := msg, fields := fields }] }

/-- The call `s.log.Warn(msg, fields...)`. -/
def server.Warn (s : server) (msg : String) (fields : List Field) : server :=
  { s with log := s.log ++ [{ level := .warn, msg := msg, fields := fields }] }

/-- The call `s.log.Error(msg, fields...)`. -/
def server.Error (s : server) (msg : String) (fields : List Field) : server :=
  { s with log := s.log ++ [{ level := .error, msg := msg, fields := fields }] }

/-! ## HTTP requests and responses -/

/-- The Go type `url.Values`, a `map[string][]string`. -/
abbrev Values := String → List String

/-- The Go method `url.Values.Get`: the first value of the key, or the empty string. -/
def Values.Get (v : Values) (key : String) : String :=
  match v key with
  | [] => ""
  | x :: _ => x

/-- What the handlers read from an `*http.Request`: the method, `r.URL.Path` (used for
routing), `r.URL.String()`, `r.URL.Query()`, the parsed form consulted by
`r.FormValue`, and the result of `r.BasicAuth()` (`none` when `ok` is false). -/
structure Request where
  Method : String
  Path : String
  URLString : String
  Query : Values
  Form : Values
  BasicAuth : Option (String × String)

/-- The Go method `Request.FormValue`: the first value of the key in the parsed form. -/
def Request.FormValue (r : Request) (key : String) : String :=
  Values.Get r.Form key

/-- An `http.ResponseWriter` while a handler runs: the live header map, the status
and header snapshot taken by the first `WriteHeader` (`none` before it), and the body
written so far. -/
structure ResponseWriter where
  header : List (String × String)
  wroteHeader : Option (Nat × List (String × String))
  body : String
deriving DecidableEq, Repr

/-- The response a client receives. -/
structure Response where
  StatusCode : Nat
  Header : List (String × String)
  Body : String
deriving DecidableEq, Repr

/-- The writer a handler is started with. -/
def ResponseWriter.fresh : ResponseWriter :=
  { header := [], wroteHeader := none, body := "" }

/-- The call `w.Header().Set(key, val)`. -/
def ResponseWriter.SetHeader (w : ResponseWriter) (key val : String) : ResponseWriter :=
  { w with header := (key, val) :: w.header.filter (fun kv => decide (kv.1 ≠ key)) }

/-- The call `w.WriteHeader(code)`: only the first call counts. -/
def ResponseWriter.WriteHeader (w : ResponseWriter) (code : Nat) : ResponseWriter :=
  match w.wroteHeader with
  | some _ => w
  | none => { w with wroteHeader := some (code, w.header) }

/-- The call `w.Write(b)`: an implicit `WriteHeader(200)` when no header was written. -/
def ResponseWriter.Write (w : ResponseWriter) (b : String) : ResponseWriter :=
  let w1 := w.WriteHeader 200
  { w1 with body := w1.body ++ b }

/-- The response sent once the handler has returned: status 200 when the handler never
wrote a header. -/
def ResponseWriter.finish (w : ResponseWriter) : Response :=
  match w.wroteHeader with
  | some (code, hdr) => { StatusCode := code, Header := hdr, Body := w.body }
  | none => { StatusCode := 200, Header := w.header, Body := w.body }

/-- The value of a header of a response. -/
def Response.HeaderGet (resp : Response) (key : String) : Option String :=
  (resp.Header.find? (fun kv => decide (kv.1 = key))).map Prod.snd

/-! ## External collaborators -/

/-- One call to the messaging transport, `SendMessage(from, to, body, nil)`. -/
structure SMS where
  sender : String
  recipient : String
  message : String
deriving DecidableEq, Repr

/-- The environment of the server: the file system and JSON decoder, the Twilio
request validator `twilio.ValidateIncomingRequest(host, authToken, req)`, and the
outcome of `SendMessage` on a client built from a SID and a token, which may depend on
all the transport calls made before it. -/
structure Env where
  fs : FileSystem
  ValidateIncomingRequest : String → String → Request → Option String
  SendMessage : String → String → List SMS → SMS → Option String

/-- What a handler runs on: the server, the response writer of the request, and the
calls made to the messaging transport so far (oldest first). -/
structure Ctx where
  srv : server
  w : ResponseWriter
  sent : List SMS

/-- The Go type `http.HandlerFunc`, in state-passing style; `none` is a panic. -/
abbrev HandlerFunc := Env → Request → Ctx → Option Ctx

/-! ## Package `main`: the directory held by the server -/

/-- The Go method `server.loadAccounts`. The result is `none` on a panic inside
`ReadFile`; otherwise the server after the call and the returned error. -/
def server.loadAccounts (env : Env) (s : server) : Option (server × Option String) :=
  let read : Option (Except String Accounts) :=
    if s.cfg.AccountsFile ≠ "" then ReadFile env.fs s.cfg.AccountsFile
    else some (.ok NewAccounts)
  match read with
  | none => none
  | some (.error err) => some (s, some err)
  | some (.ok acnts) =>
    let acnts1 :=
      if s.cfg.FaxNumber ≠ "" ∧ s.cfg.SMSNumber ≠ "" then
        acnts.Add s.cfg.FaxNumber [s.cfg.SMSNumber]
      else acnts
    some ({ s with acnts := some acnts1 }, none)

/-- The Go method `server.findAccount`: `s.acnts.Find(fax)`. The outer `none` is the
panic on a nil `s.acnts`; the inner `none` is the nil `*Account` of a missing key. -/
def server.findAccount (s : server) (fax : String) : Option (Option Account) :=
  match s.acnts with
  | none => none
  | some a => some (a.Find fax)

/-- The body of the refresh goroutine started by `run`, for one tick of the ticker:
`s.loadAccounts()` with its result discarded. -/
def server.refreshTick (env : Env) (s : server) : Option server :=
  match s.loadAccounts env with
  | none => none
  | some (s1, _) => some s1

/-! ## Package `main`: the handlers -/

/-- Lifts `server.Info` to the state a handler runs on. -/
def Ctx.Info (c : Ctx) (msg : String) (fields : List Field) : Ctx :=
  { c with srv := c.srv.Info msg fields }

/-- The Go method `server.httpErr`. -/
def Ctx.httpErr (c : Ctx) (status : Nat) (msg : String) (logID : Int) : Ctx :=
  let c1 := c.Info "HTTP error" [.int "status" status, .str "msg" msg, .int64 "log_id" logID]
  { c1 with w := (c1.w.WriteHeader status).Write msg }

/-- The Go method `server.sendSMS`: one call to the transport, recorded in `sent`. -/
def Ctx.sendSMS (env : Env) (c : Ctx) (sender recipient msg : String) : Option String × Ctx :=
  let m : SMS := { sender := sender, recipient := recipient, message := msg }
  (env.SendMessage c.srv.cfg.TwilioSID c.srv.cfg.TwilioToken c.sent m,
    { c with sent := c.sent ++ [m] })

/-- The check `twilio.ValidateIncomingRequest(...)` guarded by
`!s.cfg.SkipRequestValidation`: the error that makes the handler answer 401, if any. -/
def Ctx.validate (env : Env) (r : Request) (c : Ctx) : Option String :=
  if c.srv.cfg.SkipRequestValidation then none
  else env.ValidateIncomingRequest c.srv.cfg.HTTPBindAddress c.srv.cfg.TwilioToken r

/-- The Go method `server.serveFaxReceive` (the decision endpoint). The deferred
"HTTP request end" entry is appended on every return path. -/
def serveFaxReceive : HandlerFunc := fun env r c0 =>
  let (logid, s1) := c0.srv.nextLogID
  let c := ({ c0 with srv := s1 } : Ctx).Info "HTTP request begin"
    [.str "method" r.Method, .str "url" r.URLString, .int64 "log_id" logid]
  let done (c : Ctx) : Option Ctx := some (c.Info "HTTP request end" [.int64 "log_id" logid])
  if r.Method ≠ "POST" then
    done (c.httpErr 404 "" logid)
  else
    match c.validate env r with
    | some err =>
      done ((c.Info "Twilio request validation failed"
        [.err err, .int64 "log_id" logid]).httpErr 401 "" logid)
    | none =>
      let to_ := Values.Get r.Query "to"
      if to_ = "" then
        done (c.httpErr 400 "missing \"?to=<faxnumber>\" query in reuest" logid)
      else
        match c.srv.findAccount to_ with
        | none => none
        | some acnt =>
          let resp :=
            match acnt with
            | some a =>
              if a.FaxNumber = to_ then
                "<Response><Receive action=\"/fax/received?to=" ++ to_ ++ "\"/></Response>"
              else "<Response><Reject/></Response>"
            | none => "<Response><Reject/></Response>"
          let c1 := c.Info "HTTP response"
            [.str "fax_num" to_, .str "resp" resp, .int64 "log_id" logid]
          done { c1 with w := c1.w.Write resp }

/-- The loop `for i, _ := range acnt.Contacts` of `serveFaxReceived`: one `sendSMS` per
contact, a failed send is logged and the loop goes on. -/
def serveFaxReceived.loop (env : Env) (acnt : Account) (to_ msg : String) (logid : Int) :
    List String → Ctx → Ctx
  | [], c => c
  | contact :: rest, c =>
    match c.sendSMS env acnt.FaxNumber contact msg with
    | (some err, c1) =>
      serveFaxReceived.loop env acnt to_ msg logid rest
        (c1.Info "failed SMS"
          [.str "fax_num" to_, .str "contact" contact, .err err, .int64 "log_id" logid])
    | (none, c1) => serveFaxReceived.loop env acnt to_ msg logid rest c1

/-- The Go method `server.serveFaxReceived` (the completion endpoint). -/
def serveFaxReceived : HandlerFunc := fun env r c0 =>
  let (logid, s1) := c0.srv.nextLogID
  let c := ({ c0 with srv := s1 } : Ctx).Info "HTTP request begin"
    [.str "method" r.Method, .str "url" r.URLString, .int64 "log_id" logid]
  let done (c : Ctx) : Option Ctx := some (c.Info "HTTP request end" [.int64 "log_id" logid])
  if r.Method ≠ "POST" then
    done (c.httpErr 404 "" logid)
  else
    match c.validate env r with
    | some err =>
      done ((c.Info "Twilio request validation failed"
        [.err err, .int64 "log_id" logid]).httpErr 401 "" logid)
    | none =>
      let to_ := Values.Get r.Query "to"
      if to_ = "" then
        done (c.httpErr 400 "missing \"?to=<faxnumber>\" query in reuest" logid)
      else
        match c.srv.findAccount to_ with
        | none => none
        | some none =>
          done (c.Info "account not found" [.str "fax_num" to_, .int64 "log_id" logid])
        | some (some acnt) =>
          if acnt.FaxNumber ≠ to_ then
            done (c.Info "account not found" [.str "fax_num" to_, .int64 "log_id" logid])
          else
            let url := r.FormValue "MediaUrl"
            if url = "" then
              done (c.Info "mising MediaUrl" [.str "fax_num" to_, .int64 "log_id" logid])
            else
              let msg := "You have a fax!\n\n" ++ url
              done (serveFaxReceived.loop env acnt to_ msg logid acnt.Contacts c)

/-- The code units of a string, standing for the Go conversion `[]byte(s)`. -/
def bytes (s : String) : List Nat :=
  s.data.map Char.toNat

/-- The Go function `subtle.ConstantTimeCompare`: 0 on a length mismatch, otherwise the
bitwise-or of the pairwise xors is compared with zero. -/
def ConstantTimeCompare (x y : List Nat) : Nat :=
  if x.length ≠ y.length then 0
  else if (List.zipWith (fun a b => a ^^^ b) x y).foldl (fun v d => v ||| d) 0 = 0 then 1
  else 0

/-- The Go method `server.basicAuth`. -/
def basicAuth (handler : HandlerFunc) (username password realm : String) : HandlerFunc :=
  fun env r c =>
    let (user, pass, ok) :=
      match r.BasicAuth with
      | some (u, p) => (u, p, true)
      | none => ("", "", false)
    if !ok || ConstantTimeCompare (bytes user) (bytes username) != 1
        || ConstantTimeCompare (bytes pass) (bytes password) != 1 then
      let c1 := c.Info "HTTP error" [.int "status" 401]
      let w1 := c1.w.SetHeader "WWW-Authenticate" ("Basic realm=\"" ++ realm ++ "\"")
      some { c1 with w := (w1.WriteHeader 401).Write "Unauthorised.\n" }
    else
      handler env r c

/-! ## Package `main`: routing and start-up -/

/-- An `http.ServeMux` holding patterns without a trailing slash: each pattern matches
exactly its own path. -/
abbrev ServeMux := List (String × HandlerFunc)

/-- The Go method `ServeMux.HandleFunc`. -/
def ServeMux.HandleFunc (mux : ServeMux) (pattern : String) (h : HandlerFunc) : ServeMux :=
  mux ++ [(pattern, h)]

/-- The Go function `http.NotFound`. -/
def NotFound : HandlerFunc := fun _ _ c =>
  let w1 := (c.w.SetHeader "Content-Type" "text/plain; charset=utf-8").SetHeader
    "X-Content-Type-Options" "nosniff"
  some { c with w := (w1.WriteHeader 404).Write "404 page not found\n" }

/-- The Go method `ServeMux.ServeHTTP`: the handler registered for the path of the
request, or `NotFound`. -/
def ServeMux.ServeHTTP (mux : ServeMux) : HandlerFunc := fun env r c =>
  match mux.find? (fun ph => decide (ph.1 = r.Path)) with
  | some (_, h) => h env r c
  | none => NotFound env r c

/-- How `server.run` ends: it returns an error of its own before any listener is
called, or it calls `http.ListenAndServe(addr, mux)`, or it calls
`http.ListenAndServeTLS(addr, certFile, keyFile, mux)`. -/
inductive RunResult where
  | error (err : String)
  | ListenAndServe (addr : String) (mux : ServeMux)
  | ListenAndServeTLS (addr certFile keyFile : String) (mux : ServeMux)

/-- Whether `run` reached one of the two listeners. -/
def RunResult.listens : RunResult → Bool
  | .error _ => false
  | .ListenAndServe _ _ => true
  | .ListenAndServeTLS _ _ _ _ => true

/-- The mux handed to the listener, if one was reached. -/
def RunResult.mux : RunResult → Option ServeMux
  | .error _ => none
  | .ListenAndServe _ m => some m
  | .ListenAndServeTLS _ _ _ m => some m

/-- The Go method `server.run` up to the call of the listener. The result is `none`
on a panic in the initial load; otherwise the server state and how `run` ends. On the
error paths the deferred "faxme server stopped" entry is appended. -/
def server.run (env : Env) (s0 : server) : Option (server × RunResult) :=
  let (logid, s1) := s0.nextLogID
  let s := s1.Info "faxme server started" [.int64 "log_id" logid]
  let stopped (s : server) : server := s.Info "faxme server stopped" [.int64 "log_id" logid]
  if s.cfg.TwilioSID = "" then
    let err := "Twilio SID must be configured"
    some (stopped (s.Info err []), .error err)
  else if s.cfg.TwilioToken = "" then
    let err := "Twilio Token must be configured"
    some (stopped (s.Info err []), .error err)
  else
    let s2 := s.Info "load accounts" [.str "every" "10s", .str "path" s.cfg.AccountsFile]
    match s2.loadAccounts env with
    | none => none
    | some (s3, some err) =>
      some (stopped (s3.Info "failed load accounts"
        [.str "path" s3.cfg.AccountsFile, .err err]), .error err)
    | some (s3, none) =>
      let wrapped : HandlerFunc × HandlerFunc :=
        (basicAuth serveFaxReceive s3.cfg.HTTPUser s3.cfg.HTTPPwd "faxme",
          basicAuth serveFaxReceived s3.cfg.HTTPUser s3.cfg.HTTPPwd "faxme")
      let auth : Except String (server × HandlerFunc × HandlerFunc) :=
        if s3.cfg.HTTPUser = "" ∨ s3.cfg.HTTPPwd = "" then
          if ¬ s3.cfg.Unsafe then
            .error "provide username and password in config or specify '-unsafe' command line option"
          else
            .ok (s3.Warn
              "WARNING: no user credentials provided in configuration and running in unsafe mode"
              [], serveFaxReceive, serveFaxReceived)
        else .ok (s3, wrapped.1, wrapped.2)
      match auth with
      | .error err => some (stopped (s3.Error err []), .error err)
      | .ok (s4, hndlFaxReceive, hndlFaxReceived) =>
        let mux := (ServeMux.HandleFunc [] "/fax/receive" hndlFaxReceive).HandleFunc
          "/fax/received" hndlFaxReceived
        let addr := s4.cfg.HTTPBindAddress ++ ":" ++ s4.cfg.HTTPPort
        if s4.cfg.TLSCertFile = "" ∧ s4.cfg.TLSKeyFile = "" then
          if ¬ s4.cfg.Unsafe then
            let err :=
              "provide TLS cert and key file in config or specify '-unsafe' command line option"
            some (stopped (s4.Error err []), .error err)
          else
            some (s4.Warn "WARNING: unencrypted HTTP server listening" [.str "addr" addr],
              .ListenAndServe addr mux)
        else
          some (s4.Info "HTTPS server listening" [.str "addr" addr],
            .ListenAndServeTLS addr s4.cfg.TLSCertFile s4.cfg.TLSKeyFile mux)

/-- One request served by a handler: the handler runs on a fresh response writer and
the response is what the client receives when the handler returns. -/
def respond (h : HandlerFunc) (env : Env) (r : Request) (s : server) (sent : List SMS) :
    Option (server × Response × List SMS) :=
  match h env r { srv := s, w := ResponseWriter.fresh, sent := sent } with
  | none => none
  | some c => some (c.srv, c.w.finish, c.sent)

/-- The last record of a list whose fax number is `f`. -/
def lastWithFax (recs : List Account) (f : String) : Option Account :=
  recs.reverse.find? (fun r => decide (r.FaxNumber = f))

/-- The body the decision endpoint owes for the target `to_` and the directory `d`,
in the words of the specification: the accept directive when the lookup finds an
account whose stored fax number is `to_`, the reject directive otherwise. -/
def decisionBody (d : Accounts) (to_ : String) : String :=
  match d.Find to_ with
  | some a =>
    if a.FaxNumber = to_ then
      "<Response><Receive action=\"/fax/received?to=" ++ to_ ++ "\"/></Response>"
    else "<Response><Reject/></Response>"
  | none => "<Response><Reject/></Response>"

/-! ## Sample inputs -/

/-- The records of the repository's test `Test_ReadFile`, followed by a second record
for the first fax number. -/
def testRecords : List Account :=
  [{ FaxNumber := "12223334444", Contacts := ["14443332222", "19998887777"] },
   { FaxNumber := "14443332222", Contacts := ["15556667777", "17776665555"] },
   { FaxNumber := "12223334444", Contacts := ["10000000000", "10000000000"] }]

/-- A configuration with credentials, TLS material and Twilio settings. -/
def sampleConfig : Config :=
  { HTTPBindAddress := "127.0.0.1", HTTPPort := "7500", HTTPUser := "user",
    HTTPPwd := "secret", TLSCertFile := "cert.pem", TLSKeyFile := "key.pem",
    Unsafe := false, FaxNumber := "", SMSNumber := "", AccountsFile := "accounts.json",
    TwilioSID := "sid", TwilioToken := "token", SkipRequestValidation := false }

/-- An environment whose accounts file holds the two records of `Test_ReadFile`, whose
request validation passes, and whose transport fails on the first send of a request
and succeeds afterwards. -/
def sampleEnv : Env :=
  { fs := fun _ => .ok (testRecords.take 2 |>.map some),
    ValidateIncomingRequest := fun _ _ _ => none,
    SendMessage := fun _ _ earlier _ => if earlier = [] then some "transport down" else none }

/-- The directory of `Test_ReadFile`. -/
def sampleDirectory : Accounts :=
  (NewAccounts.Add "12223334444" ["14443332222", "19998887777"]).Add
    "14443332222" ["15556667777", "17776665555"]

/-- A server holding `sampleDirectory`. -/
def sampleServer : server :=
  { cfg := sampleConfig, log := [], logid := 0, acnts := some sampleDirectory }

/-- A POST for the fax number `12223334444` carrying a media URL and the configured
credentials. -/
def samplePost : Request :=
  { Method := "POST", Path := "/fax/received", URLString := "/fax/received?to=12223334444",
    Query := fun k => if k = "to" then ["12223334444"] else [],
    Form := fun k => if k = "MediaUrl" then ["http://x/y.pdf"] else [],
    BasicAuth := some ("user", "secret") }

/-- A GET for the decision endpoint that carries no credentials. -/
def sampleGet : Request :=
  { Method := "GET", Path := "/fax/receive", URLString := "/fax/receive?to=12223334444",
    Query := fun k => if k = "to" then ["12223334444"] else [],
    Form := fun _ => [],
    BasicAuth := none }

/-- A GET for the completion endpoint that carries the configured credentials. -/
def sampleGetAuth : Request :=
  { Method := "GET", Path := "/fax/received", URLString := "/fax/received",
    Query := fun _ => [],
    Form := fun _ => [],
    BasicAuth := some ("user", "secret") }

/-- An environment whose accounts file cannot be read. -/
def failingEnv : Env :=
  { fs := fun _ => .error "open accounts.json: no such file or directory",
    ValidateIncomingRequest := fun _ _ _ => none,
    SendMessage := fun _ _ _ _ => none }

/-- A configuration with an accounts file and an operator account whose fax number is
also the fax number of a record of the file. -/
def operatorConfig : Config :=
  { sampleConfig with FaxNumber := "12223334444", SMSNumber := "15550001111" }

/-- A configuration with credentials and a TLS certificate but no TLS key, without the
unsafe override. -/
def certOnlyConfig : Config :=
  { sampleConfig with TLSKeyFile := "" }

/-- A configuration with credentials but neither TLS certificate nor TLS key, without
the unsafe override. -/
def noTLSConfig : Config :=
  { sampleConfig with TLSCertFile := "", TLSKeyFile := "" }

/-- A server with `operatorConfig` that holds no directory yet. -/
def operatorServer : server :=
  newServer operatorConfig

/-- A server whose directory holds one account that the accounts file of `sampleEnv`
does not have. -/
def staleServer : server :=
  { cfg := sampleConfig, log := [], logid := 7,
    acnts := some (NewAccounts.Add "10000000000" ["15550002222"]) }

/-! ## Theorems -/

theorem ReadFile.loop_some (recs : List Account) (m : Accounts) :
    ∃ d, ReadFile.loop (recs.map some) m = some d ∧
      ∀ f, d.Find f = (lastWithFax recs f).orElse (fun _ => m.acnts f) := by
  induction recs generalizing m with
  | nil => exact ⟨m, rfl, fun f => by simp [lastWithFax, Accounts.Find]⟩
  | cons r rest ih =>
    obtain ⟨d, hd, hf⟩ := ih (m.store r.FaxNumber r)
    refine ⟨d, by simpa [ReadFile.loop] using hd, fun f => ?_⟩
    rw [hf f]
    simp only [lastWithFax, List.reverse_cons, List.find?_append, Accounts.store]
    cases h : List.find? (fun r => decide (r.FaxNumber = f)) rest.reverse with
    | some a => simp
    | none =>
      by_cases hk : r.FaxNumber = f
      · simp [hk]
      · have hk2 : ¬ f = r.FaxNumber := fun e => hk e.symm
        simp [hk, hk2]

theorem lastWithFax_eq_some_iff (recs : List Account) (f : String) (a : Account) :
    lastWithFax recs f = some a ↔
      a.FaxNumber = f ∧ ∃ pre post, recs = pre ++ a :: post ∧ ∀ b ∈ post, b.FaxNumber ≠ f := by
  unfold lastWithFax
  rw [List.find?_eq_some]
  constructor
  · rintro ⟨hp, l1, l2, hrev, hall⟩
    refine ⟨by simpa using hp, l2.reverse, l1.reverse, ?_, ?_⟩
    · have h2 := congrArg List.reverse hrev
      simpa using h2
    · intro b hb
      have h3 := hall b (by simpa using hb)
      simpa using h3
  · rintro ⟨hp, pre, post, hrecs, hall⟩
    refine ⟨by simpa using hp, post.reverse, pre.reverse, ?_, ?_⟩
    · simp [hrecs]
    · intro b hb
      have h3 := hall b (by simpa using hb)
      simpa using h3

theorem lastWithFax_eq_none_iff (recs : List Account) (f : String) :
    lastWithFax recs f = none ↔ ∀ b ∈ recs, b.FaxNumber ≠ f := by
  simp [lastWithFax]

theorem ReadFile_ok (fs : FileSystem) (path : String) (recs : List Account)
    (h : fs path = .ok (recs.map some)) :
    ∃ d, ReadFile fs path = some (.ok d) ∧ ∀ f, d.Find f = lastWithFax recs f := by
  obtain ⟨d, hd, hf⟩ := ReadFile.loop_some recs NewAccounts
  refine ⟨d, by simp [ReadFile, h, hd], fun f => ?_⟩
  rw [hf f]
  cases lastWithFax recs f <;> simp [NewAccounts]

/-- C3: when the accounts file decodes to the records `recs`, `ReadFile` succeeds
(duplicate fax numbers are no error) and `Find f` on the directory it builds returns
exactly the last record of `recs` whose fax number is `f`, the record itself with its
contacts untouched, and returns nothing exactly when no record has fax number `f`. -/
theorem C3_ReadFile_Find_last (fs : FileSystem) (path : String) (recs : List Account)
    (h : fs path = .ok (recs.map some)) :
    ∃ d, ReadFile fs path = some (.ok d) ∧
      (∀ f a, d.Find f = some a ↔
        a.FaxNumber = f ∧
          ∃ pre post, recs = pre ++ a :: post ∧ ∀ b ∈ post, b.FaxNumber ≠ f) ∧
      (∀ f, d.Find f = none ↔ ∀ b ∈ recs, b.FaxNumber ≠ f) := by
  obtain ⟨d, hd, hf⟩ := ReadFile_ok fs path recs h
  refine ⟨d, hd, fun f a => ?_, fun f => ?_⟩
  · rw [hf f]; exact lastWithFax_eq_some_iff recs f a
  · rw [hf f]; exact lastWithFax_eq_none_iff recs f

/-- C3 at a file with a duplicated fax number. -/
theorem C3_ReadFile_Find_last_witness :
    ∃ d, ReadFile (fun _ => .ok (testRecords.map some)) "accounts.json" = some (.ok d) ∧
      (∀ f a, d.Find f = some a ↔
        a.FaxNumber = f ∧
          ∃ pre post, testRecords = pre ++ a :: post ∧ ∀ b ∈ post, b.FaxNumber ≠ f) ∧
      (∀ f, d.Find f = none ↔ ∀ b ∈ testRecords, b.FaxNumber ≠ f) :=
  C3_ReadFile_Find_last (fun _ => .ok (testRecords.map some)) "accounts.json" testRecords rfl

theorem decisionBody_accept (d : Accounts) (to_ : String)
    (h : ∃ a, d.Find to_ = some a ∧ a.FaxNumber = to_) :
    decisionBody d to_ =
      "<Response><Receive action=\"/fax/received?to=" ++ to_ ++ "\"/></Response>" := by
  obtain ⟨a, ha, hf⟩ := h
  simp [decisionBody, ha, hf]

theorem decisionBody_reject (d : Accounts) (to_ : String)
    (h : ¬ ∃ a, d.Find to_ = some a ∧ a.FaxNumber = to_) :
    decisionBody d to_ = "<Response><Reject/></Response>" := by
  unfold decisionBody
  cases hf : d.Find to_ with
  | none => rfl
  | some a =>
    have hne : ¬ a.FaxNumber = to_ := fun e => h ⟨a, hf, e⟩
    simp [hne]

theorem validate_none (env : Env) (r : Request) (c : Ctx)
    (h : c.srv.cfg.SkipRequestValidation = true ∨
      env.ValidateIncomingRequest c.srv.cfg.HTTPBindAddress c.srv.cfg.TwilioToken r = none) :
    c.validate env r = none := by
  unfold Ctx.validate
  rcases h with h | h
  · simp [h]
  · simp [h]

/-- C1: a POST to the decision endpoint that passes request validation (or for which
validation is skipped) and carries a non-empty `to` is answered, on any installed
directory `d`, with status 200 and the body `decisionBody d to`, a function of `to`
and `d` alone: the accept directive naming the same `to` when the lookup finds an
account whose stored fax number is `to`, the reject directive otherwise. No message
is sent and the directory is left as it was. -/
theorem C1_decision_endpoint (env : Env) (r : Request) (s : server) (sent : List SMS)
    (d : Accounts) (hpost : r.Method = "POST")
    (hauth : s.cfg.SkipRequestValidation = true ∨
      env.ValidateIncomingRequest s.cfg.HTTPBindAddress s.cfg.TwilioToken r = none)
    (hto : Values.Get r.Query "to" ≠ "") (hd : s.acnts = some d) :
    (∃ s1, respond serveFaxReceive env r s sent =
        some (s1, { StatusCode := 200, Header := [],
                    Body := decisionBody d (Values.Get r.Query "to") }, sent) ∧
      s1.acnts = some d) ∧
    ((∃ a, d.Find (Values.Get r.Query "to") = some a ∧
        a.FaxNumber = Values.Get r.Query "to") →
      decisionBody d (Values.Get r.Query "to") =
        "<Response><Receive action=\"/fax/received?to=" ++ Values.Get r.Query "to" ++
          "\"/></Response>") ∧
    ((¬ ∃ a, d.Find (Values.Get r.Query "to") = some a ∧
        a.FaxNumber = Values.Get r.Query "to") →
      decisionBody d (Values.Get r.Query "to") = "<Response><Reject/></Response>") := by
  refine ⟨?_, decisionBody_accept d _, decisionBody_reject d _⟩
  have hv : ∀ c : Ctx, c.srv.cfg = s.cfg → c.validate env r = none := fun c hc =>
    validate_none env r c (by rw [hc]; exact hauth)
  simp only [respond, serveFaxReceive, server.nextLogID, Ctx.Info, server.Info, hpost,
    ne_eq, not_true_eq_false, if_false, hto, server.findAccount, hd]
  rw [hv _ rfl]
  simp only [decisionBody]
  cases hf : d.Find (Values.Get r.Query "to") with
  | none =>
    simp [ResponseWriter.Write, ResponseWriter.WriteHeader, ResponseWriter.fresh,
      ResponseWriter.finish]
  | some a =>
    by_cases hk : a.FaxNumber = Values.Get r.Query "to"
    · simp [hk, ResponseWriter.Write, ResponseWriter.WriteHeader, ResponseWriter.fresh,
        ResponseWriter.finish]
    · simp [hk, ResponseWriter.Write, ResponseWriter.WriteHeader, ResponseWriter.fresh,
        ResponseWriter.finish]

/-- C1 at the directory of `Test_ReadFile` and a POST for `12223334444`. -/
theorem C1_decision_endpoint_witness :
    (∃ s1, respond serveFaxReceive sampleEnv samplePost sampleServer [] =
        some (s1, { StatusCode := 200, Header := [],
                    Body := decisionBody sampleDirectory
                      (Values.Get samplePost.Query "to") }, []) ∧
      s1.acnts = some sampleDirectory) ∧
    ((∃ a, sampleDirectory.Find (Values.Get samplePost.Query "to") = some a ∧
        a.FaxNumber = Values.Get samplePost.Query "to") →
      decisionBody sampleDirectory (Values.Get samplePost.Query "to") =
        "<Response><Receive action=\"/fax/received?to=" ++
          Values.Get samplePost.Query "to" ++ "\"/></Response>") ∧
    ((¬ ∃ a, sampleDirectory.Find (Values.Get samplePost.Query "to") = some a ∧
        a.FaxNumber = Values.Get samplePost.Query "to") →
      decisionBody sampleDirectory (Values.Get samplePost.Query "to") =
        "<Response><Reject/></Response>") :=
  C1_decision_endpoint sampleEnv samplePost sampleServer [] sampleDirectory rfl
    (Or.inr rfl) (by decide) rfl

theorem serveFaxReceived.loop_spec (env : Env) (acnt : Account) (to_ msg : String)
    (logid : Int) (contacts : List String) (c : Ctx) :
    (serveFaxReceived.loop env acnt to_ msg logid contacts c).sent =
        c.sent ++ contacts.map
          (fun k => { sender := acnt.FaxNumber, recipient := k, message := msg }) ∧
      (serveFaxReceived.loop env acnt to_ msg logid contacts c).w = c.w ∧
      (serveFaxReceived.loop env acnt to_ msg logid contacts c).srv.acnts = c.srv.acnts ∧
      (serveFaxReceived.loop env acnt to_ msg logid contacts c).srv.cfg = c.srv.cfg := by
  induction contacts generalizing c with
  | nil => simp [serveFaxReceived.loop]
  | cons k rest ih =>
    unfold serveFaxReceived.loop
    cases hs : env.SendMessage c.srv.cfg.TwilioSID c.srv.cfg.TwilioToken c.sent
        { sender := acnt.FaxNumber, recipient := k, message := msg } with
    | none =>
      simp only [Ctx.sendSMS, hs]
      have h := ih { c with sent := c.sent ++
        [{ sender := acnt.FaxNumber, recipient := k, message := msg }] }
      simpa using h
    | some err =>
      simp only [Ctx.sendSMS, hs]
      have h := ih (Ctx.Info { c with sent := c.sent ++
        [{ sender := acnt.FaxNumber, recipient := k, message := msg }] } "failed SMS"
        [.str "fax_num" to_, .str "contact" k, .err err, .int64 "log_id" logid])
      simpa [Ctx.Info, server.Info] using h

theorem serveFaxReceived_post (env : Env) (r : Request) (c0 : Ctx) (d : Accounts)
    (hpost : r.Method = "POST")
    (hauth : c0.srv.cfg.SkipRequestValidation = true ∨
      env.ValidateIncomingRequest c0.srv.cfg.HTTPBindAddress c0.srv.cfg.TwilioToken r = none)
    (hto : Values.Get r.Query "to" ≠ "") (hd : c0.srv.acnts = some d) :
    ∃ c1, serveFaxReceived env r c0 = some c1 ∧ c1.w = c0.w ∧ c1.srv.acnts = some d ∧
      (((¬ ∃ a, d.Find (Values.Get r.Query "to") = some a ∧
            a.FaxNumber = Values.Get r.Query "to") ∨ r.FormValue "MediaUrl" = "") →
        c1.sent = c0.sent) ∧
      (∀ a, d.Find (Values.Get r.Query "to") = some a →
        a.FaxNumber = Values.Get r.Query "to" → r.FormValue "MediaUrl" ≠ "" →
        c1.sent = c0.sent ++ a.Contacts.map (fun k =>
            { sender := a.FaxNumber, recipient := k,
              message := "You have a fax!\n\n" ++ r.FormValue "MediaUrl" })) := by
  obtain ⟨⟨cfg, log, logid, acnts⟩, w, sent⟩ := c0
  simp only at hauth hd
  have hv : ∀ c : Ctx, c.srv.cfg = cfg → c.validate env r = none := fun c hc =>
    validate_none env r c (by rw [hc]; exact hauth)
  simp only [serveFaxReceived, server.nextLogID, Ctx.Info, server.Info, hpost,
    ne_eq, not_true_eq_false, if_false, hto, server.findAccount, hd]
  rw [hv _ rfl]
  cases hf : d.Find (Values.Get r.Query "to") with
  | none =>
    refine ⟨_, rfl, rfl, rfl, fun _ => rfl, fun a ha => ?_⟩
    simp at ha
  | some a =>
    by_cases hk : a.FaxNumber = Values.Get r.Query "to"
    · by_cases hu : r.FormValue "MediaUrl" = ""
      · simp only [hk, not_true_eq_false, if_false, hu, if_true]
        exact ⟨_, rfl, rfl, rfl, fun _ => rfl, fun b _ _ hne => hne.elim⟩
      · simp only [hk, not_true_eq_false, if_false, hu]
        refine ⟨_, rfl, ?_, ?_, ?_, ?_⟩
        · exact (serveFaxReceived.loop_spec env a _ _ _ a.Contacts _).2.1
        · exact (serveFaxReceived.loop_spec env a _ _ _ a.Contacts _).2.2.1
        · rintro (hno | hemp)
          · exact absurd ⟨a, rfl, hk⟩ hno
          · exact hemp.elim
        · intro b hb _ _
          have hab : a = b := by simpa using hb
          subst hab
          exact (serveFaxReceived.loop_spec env a _ _ _ a.Contacts _).1
    · simp only [hk, not_false_eq_true, if_true]
      refine ⟨_, rfl, rfl, rfl, fun _ => rfl, fun b hb hb2 _ => ?_⟩
      have hab : a = b := by simpa using hb
      subst hab
      exact absurd hb2 hk

/-- C2: a POST to the completion endpoint that passes request validation (or for which
validation is skipped) and carries a non-empty `to` is answered, on any installed
directory and whatever the outcome of each send, with status 200 and an empty body.
The sends it makes are none when no account matches `to` or the `MediaUrl` form value
is empty, and otherwise exactly one per contact of the account, in the stored order
with duplicates kept, each from the account's fax number to that contact with the
message "You have a fax!", a blank line and the media URL. -/
theorem C2_completion_fanout (env : Env) (r : Request) (s : server) (sent : List SMS)
    (d : Accounts) (hpost : r.Method = "POST")
    (hauth : s.cfg.SkipRequestValidation = true ∨
      env.ValidateIncomingRequest s.cfg.HTTPBindAddress s.cfg.TwilioToken r = none)
    (hto : Values.Get r.Query "to" ≠ "") (hd : s.acnts = some d) :
    ∃ s1 sent1, respond serveFaxReceived env r s sent =
        some (s1, { StatusCode := 200, Header := [], Body := "" }, sent1) ∧
      s1.acnts = some d ∧
      (((¬ ∃ a, d.Find (Values.Get r.Query "to") = some a ∧
            a.FaxNumber = Values.Get r.Query "to") ∨ r.FormValue "MediaUrl" = "") →
        sent1 = sent) ∧
      (∀ a, d.Find (Values.Get r.Query "to") = some a →
        a.FaxNumber = Values.Get r.Query "to" → r.FormValue "MediaUrl" ≠ "" →
        sent1 = sent ++ a.Contacts.map (fun k =>
            { sender := a.FaxNumber, recipient := k,
              message := "You have a fax!\n\n" ++ r.FormValue "MediaUrl" }) ∧
          sent1.length = sent.length + a.Contacts.length) := by
  obtain ⟨c1, hc, hw, ha, hnone, hall⟩ := serveFaxReceived_post env r
    { srv := s, w := ResponseWriter.fresh, sent := sent } d hpost hauth hto hd
  refine ⟨c1.srv, c1.sent, ?_, ha, hnone, fun a h1 h2 h3 => ?_⟩
  · simp only [respond, hc, hw]
    rfl
  · have h := hall a h1 h2 h3
    exact ⟨h, by rw [h]; simp⟩

/-- C2 at an account with two contacts where the first send fails. -/
theorem C2_completion_fanout_witness :
    ∃ s1 sent1, respond serveFaxReceived sampleEnv samplePost sampleServer [] =
        some (s1, { StatusCode := 200, Header := [], Body := "" }, sent1) ∧
      s1.acnts = some sampleDirectory ∧
      (((¬ ∃ a, sampleDirectory.Find (Values.Get samplePost.Query "to") = some a ∧
            a.FaxNumber = Values.Get samplePost.Query "to") ∨
          samplePost.FormValue "MediaUrl" = "") →
        sent1 = []) ∧
      (∀ a, sampleDirectory.Find (Values.Get samplePost.Query "to") = some a →
        a.FaxNumber = Values.Get samplePost.Query "to" →
        samplePost.FormValue "MediaUrl" ≠ "" →
        sent1 = [] ++ a.Contacts.map (fun k =>
            { sender := a.FaxNumber, recipient := k,
              message := "You have a fax!\n\n" ++ samplePost.FormValue "MediaUrl" }) ∧
          sent1.length = ([] : List SMS).length + a.Contacts.length) :=
  C2_completion_fanout sampleEnv samplePost sampleServer [] sampleDirectory rfl
    (Or.inr rfl) (by decide) rfl

theorem foldl_or_eq_zero (l : List Nat) (acc : Nat) :
    l.foldl (fun v d => v ||| d) acc = 0 ↔ acc = 0 ∧ ∀ x ∈ l, x = 0 := by
  induction l generalizing acc with
  | nil => simp
  | cons x rest ih =>
    simp only [List.foldl_cons, ih, List.mem_cons, forall_eq_or_imp]
    constructor
    · rintro ⟨h0, hr⟩
      have hx : acc = 0 ∧ x = 0 := by
        constructor
        · apply Nat.eq_of_testBit_eq
          intro i
          have := congrArg (fun n => n.testBit i) h0
          simp only [Nat.testBit_or, Nat.zero_testBit, Bool.or_eq_false_iff] at this
          simp [this.1]
        · apply Nat.eq_of_testBit_eq
          intro i
          have := congrArg (fun n => n.testBit i) h0
          simp only [Nat.testBit_or, Nat.zero_testBit, Bool.or_eq_false_iff] at this
          simp [this.2]
      exact ⟨hx.1, hx.2, hr⟩
    · rintro ⟨ha, hx, hr⟩
      exact ⟨by simp [ha, hx], hr⟩

theorem zipWith_xor_zero (x y : List Nat) (hlen : x.length = y.length) :
    (∀ v ∈ List.zipWith (fun a b => a ^^^ b) x y, v = 0) ↔ x = y := by
  induction x generalizing y with
  | nil =>
    cases y with
    | nil => simp
    | cons b ys => simp at hlen
  | cons a xs ih =>
    cases y with
    | nil => simp at hlen
    | cons b ys =>
      have hl : xs.length = ys.length := by simpa using hlen
      simp only [List.zipWith_cons_cons, List.mem_cons, forall_eq_or_imp, ih ys hl,
        Nat.xor_eq_zero, List.cons.injEq]

theorem ConstantTimeCompare_eq_one (x y : List Nat) : ConstantTimeCompare x y = 1 ↔ x = y := by
  unfold ConstantTimeCompare
  by_cases hlen : x.length = y.length
  · simp only [hlen, ne_eq, not_true_eq_false, if_false, foldl_or_eq_zero, true_and,
      zipWith_xor_zero x y hlen]
    by_cases hxy : x = y <;> simp [hxy]
  · have hne : x ≠ y := fun e => hlen (by rw [e])
    simp [hlen, hne]

theorem bytes_injective (s t : String) (h : bytes s = bytes t) : s = t := by
  have hinj : Function.Injective Char.toNat := by
    intro a b hab
    apply Char.ext
    exact UInt32.ext hab
  cases s; cases t
  simp only [bytes] at h
  exact congrArg String.mk (List.map_injective_iff.mpr hinj h)

theorem basicAuth_gate (r : Request) (username password : String) :
    ((match r.BasicAuth with
        | some (u, p) => (u, p, true)
        | none => ("", "", false)) : String × String × Bool) =
      (match r.BasicAuth with
        | some (u, p) => (u, p, true)
        | none => ("", "", false)) ∧
    (r.BasicAuth = some (username, password) ↔
      ∃ u p, r.BasicAuth = some (u, p) ∧
        ConstantTimeCompare (bytes u) (bytes username) = 1 ∧
        ConstantTimeCompare (bytes p) (bytes password) = 1) := by
  refine ⟨rfl, ?_⟩
  constructor
  · intro h
    exact ⟨username, password, h, (ConstantTimeCompare_eq_one _ _).mpr rfl,
      (ConstantTimeCompare_eq_one _ _).mpr rfl⟩
  · rintro ⟨u, p, h, hu, hp⟩
    rw [h, bytes_injective _ _ ((ConstantTimeCompare_eq_one _ _).mp hu),
      bytes_injective _ _ ((ConstantTimeCompare_eq_one _ _).mp hp)]

theorem basicAuth_pass (handler : HandlerFunc) (username password realm : String) (env : Env)
    (r : Request) (c : Ctx) (h : r.BasicAuth = some (username, password)) :
    basicAuth handler username password realm env r c = handler env r c := by
  simp [basicAuth, h, (ConstantTimeCompare_eq_one _ _).mpr rfl]

theorem basicAuth_fail (handler : HandlerFunc) (username password realm : String) (env : Env)
    (r : Request) (c : Ctx) (h : r.BasicAuth ≠ some (username, password)) :
    basicAuth handler username password realm env r c =
      some { srv := c.srv.Info "HTTP error" [.int "status" 401],
             w := (((c.w.SetHeader "WWW-Authenticate"
               ("Basic realm=\"" ++ realm ++ "\"")).WriteHeader 401).Write "Unauthorised.\n"),
             sent := c.sent } := by
  unfold basicAuth
  cases hb : r.BasicAuth with
  | none => simp [Ctx.Info]
  | some up =>
    obtain ⟨u, p⟩ := up
    have hne : ¬ (ConstantTimeCompare (bytes u) (bytes username) = 1 ∧
        ConstantTimeCompare (bytes p) (bytes password) = 1) := by
      rintro ⟨hu, hp⟩
      exact h ((basicAuth_gate r username password).2.mpr ⟨u, p, hb, hu, hp⟩)
    by_cases hu : ConstantTimeCompare (bytes u) (bytes username) = 1
    · have hp : ¬ ConstantTimeCompare (bytes p) (bytes password) = 1 := fun e => hne ⟨hu, e⟩
      simp [hu, hp, Ctx.Info]
    · simp [hu, Ctx.Info]

/-- C4: the handler that `basicAuth` builds for the realm `faxme` answers a request
whose basic-auth credentials are exactly the expected user name and password by
running the wrapped handler, and its response is the wrapped handler's response. For
any other request (no credentials, or a user name or password that differs) the
outcome is the same whatever the wrapped handler is, so the wrapped handler is not
run: the response is status 401 with the header WWW-Authenticate set to
`Basic realm="faxme"`, no message is sent and the directory is untouched. -/
theorem C4_basicAuth_gate (handler : HandlerFunc) (username password : String) (env : Env)
    (r : Request) (s : server) (sent : List SMS) :
    (r.BasicAuth = some (username, password) →
      respond (basicAuth handler username password "faxme") env r s sent =
        respond handler env r s sent) ∧
    (r.BasicAuth ≠ some (username, password) →
      ∃ s1,
        (∀ h : HandlerFunc, respond (basicAuth h username password "faxme") env r s sent =
          some (s1, { StatusCode := 401,
                      Header := [("WWW-Authenticate", "Basic realm=\"faxme\"")],
                      Body := "Unauthorised.\n" }, sent)) ∧
        s1.acnts = s.acnts ∧
        Response.HeaderGet { StatusCode := 401,
                             Header := [("WWW-Authenticate", "Basic realm=\"faxme\"")],
                             Body := "Unauthorised.\n" } "WWW-Authenticate" =
          some "Basic realm=\"faxme\"") := by
  constructor
  · intro h
    simp only [respond, basicAuth_pass handler username password "faxme" env r _ h]
  · intro h
    refine ⟨s.Info "HTTP error" [.int "status" 401], fun h2 => ?_, rfl, by decide⟩
    simp only [respond, basicAuth_fail h2 username password "faxme" env r _ h]
    rfl

theorem loadAccounts_cases (env : Env) (s : server) :
    s.loadAccounts env = none ∨ (∃ err, s.loadAccounts env = some (s, some err)) ∨
      ∃ d, s.loadAccounts env = some ({ s with acnts := some d }, none) := by
  unfold server.loadAccounts
  generalize (if s.cfg.AccountsFile ≠ "" then ReadFile env.fs s.cfg.AccountsFile
    else some (.ok NewAccounts)) = rd
  rcases rd with _ | (err | acnts)
  · exact Or.inl rfl
  · exact Or.inr (Or.inl ⟨err, rfl⟩)
  · exact Or.inr (Or.inr ⟨_, rfl⟩)

theorem loadAccounts_cfg (env : Env) (s s1 : server) (e : Option String)
    (h : s.loadAccounts env = some (s1, e)) : s1.cfg = s.cfg := by
  rcases loadAccounts_cases env s with h0 | ⟨err, h1⟩ | ⟨d, h2⟩
  · rw [h0] at h; simp at h
  · rw [h1] at h
    simp only [Option.some.injEq, Prod.mk.injEq] at h
    rw [← h.1]
  · rw [h2] at h
    simp only [Option.some.injEq, Prod.mk.injEq] at h
    rw [← h.1]

theorem run_mux (env : Env) (s0 s1 : server) (res : RunResult) (mux : ServeMux)
    (h : s0.run env = some (s1, res)) (hm : res.mux = some mux) :
    mux =
      [("/fax/receive",
          if s0.cfg.HTTPUser = "" ∨ s0.cfg.HTTPPwd = "" then serveFaxReceive
          else basicAuth serveFaxReceive s0.cfg.HTTPUser s0.cfg.HTTPPwd "faxme"),
        ("/fax/received",
          if s0.cfg.HTTPUser = "" ∨ s0.cfg.HTTPPwd = "" then serveFaxReceived
          else basicAuth serveFaxReceived s0.cfg.HTTPUser s0.cfg.HTTPPwd "faxme")] := by
  simp only [server.run, server.nextLogID] at h
  split at h
  · simp only [Option.some.injEq, Prod.mk.injEq] at h
    rw [← h.2] at hm
    simp [RunResult.mux] at hm
  · split at h
    · simp only [Option.some.injEq, Prod.mk.injEq] at h
      rw [← h.2] at hm
      simp [RunResult.mux] at hm
    · split at h
      · simp at h
      · simp only [Option.some.injEq, Prod.mk.injEq] at h
        rw [← h.2] at hm
        simp [RunResult.mux] at hm
      · rename_i s3 hload
        have hcfg : s3.cfg = s0.cfg := by
          rw [loadAccounts_cfg env _ s3 none hload]
          rfl
        simp only [hcfg, server.Warn, server.Info, server.Error] at h
        by_cases hup : s0.cfg.HTTPUser = "" ∨ s0.cfg.HTTPPwd = ""
        · simp only [hup, if_true] at h ⊢
          by_cases hun : s0.cfg.Unsafe = true
          · simp only [hun, not_true_eq_false, if_false, hcfg] at h
            split at h
            · simp only [Option.some.injEq, Prod.mk.injEq] at h
              rw [← h.2] at hm
              simpa [RunResult.mux, ServeMux.HandleFunc] using hm.symm
            · simp only [Option.some.injEq, Prod.mk.injEq] at h
              rw [← h.2] at hm
              simpa [RunResult.mux, ServeMux.HandleFunc] using hm.symm
          · simp only [hun, Bool.false_eq_true, not_false_eq_true, if_true, Option.some.injEq,
              Prod.mk.injEq] at h
            rw [← h.2] at hm
            simp [RunResult.mux] at hm
        · simp only [hup, if_false] at h ⊢
          by_cases hun : s0.cfg.Unsafe = true
          · simp only [hun, not_true_eq_false, if_false, hcfg] at h
            split at h
            · simp only [Option.some.injEq, Prod.mk.injEq] at h
              rw [← h.2] at hm
              simpa [RunResult.mux, ServeMux.HandleFunc] using hm.symm
            · simp only [Option.some.injEq, Prod.mk.injEq] at h
              rw [← h.2] at hm
              simpa [RunResult.mux, ServeMux.HandleFunc] using hm.symm
          · simp only [hun, Bool.false_eq_true, not_false_eq_true, if_true, hcfg] at h
            split at h
            · simp only [Option.some.injEq, Prod.mk.injEq] at h
              rw [← h.2] at hm
              simp [RunResult.mux] at hm
            · simp only [Option.some.injEq, Prod.mk.injEq] at h
              rw [← h.2] at hm
              simpa [RunResult.mux, ServeMux.HandleFunc] using hm.symm

theorem serveFaxReceive_nonPost (env : Env) (r : Request) (s : server) (sent : List SMS)
    (h : r.Method ≠ "POST") :
    ∃ s2, respond serveFaxReceive env r s sent =
        some (s2, { StatusCode := 404, Header := [], Body := "" }, sent) ∧
      s2.acnts = s.acnts := by
  simp only [respond, serveFaxReceive, server.nextLogID, Ctx.Info, server.Info, h, ne_eq,
    not_false_eq_true, if_true, Ctx.httpErr]
  exact ⟨_, rfl, rfl⟩

theorem serveFaxReceived_nonPost (env : Env) (r : Request) (s : server) (sent : List SMS)
    (h : r.Method ≠ "POST") :
    ∃ s2, respond serveFaxReceived env r s sent =
        some (s2, { StatusCode := 404, Header := [], Body := "" }, sent) ∧
      s2.acnts = s.acnts := by
  simp only [respond, serveFaxReceived, server.nextLogID, Ctx.Info, server.Info, h, ne_eq,
    not_false_eq_true, if_true, Ctx.httpErr]
  exact ⟨_, rfl, rfl⟩

theorem respond_basicAuth_fail (handler : HandlerFunc) (username password : String)
    (env : Env) (r : Request) (s : server) (sent : List SMS)
    (h : r.BasicAuth ≠ some (username, password)) :
    ∃ s2, respond (basicAuth handler username password "faxme") env r s sent =
        some (s2, { StatusCode := 401,
                    Header := [("WWW-Authenticate", "Basic realm=\"faxme\"")],
                    Body := "Unauthorised.\n" }, sent) ∧
      s2.acnts = s.acnts := by
  refine ⟨s.Info "HTTP error" [.int "status" 401], ?_, rfl⟩
  simp only [respond, basicAuth_fail handler username password "faxme" env r _ h]
  rfl

theorem respond_basicAuth_pass (handler : HandlerFunc) (username password : String)
    (env : Env) (r : Request) (s : server) (sent : List SMS)
    (h : r.BasicAuth = some (username, password)) :
    respond (basicAuth handler username password "faxme") env r s sent =
      respond handler env r s sent := by
  simp only [respond, basicAuth_pass handler username password "faxme" env r _ h]

theorem ServeHTTP_wired (h1 h2 : HandlerFunc) (env : Env) (r : Request) (c : Ctx) :
    (r.Path = "/fax/receive" →
      ServeMux.ServeHTTP [("/fax/receive", h1), ("/fax/received", h2)] env r c = h1 env r c) ∧
    (r.Path = "/fax/received" →
      ServeMux.ServeHTTP [("/fax/receive", h1), ("/fax/received", h2)] env r c = h2 env r c) := by
  constructor
  · intro hp
    simp [ServeMux.ServeHTTP, hp]
  · intro hp
    simp [ServeMux.ServeHTTP, hp]

/-- C5, counterexample to the claim as stated: with a user name and a password
configured, `run` wires the basic-auth wrapper around both endpoints, and a GET to
`/fax/receive` that carries no credentials is answered 401, not 404. -/
theorem C5_nonPost_counterexample :
    ∃ s1 res mux s2 resp,
      (newServer sampleConfig).run sampleEnv = some (s1, res) ∧ res.mux = some mux ∧
      sampleGet.Method ≠ "POST" ∧ sampleGet.Path = "/fax/receive" ∧
      respond (ServeMux.ServeHTTP mux) sampleEnv sampleGet s1 [] = some (s2, resp, []) ∧
      resp.StatusCode = 401 ∧ resp.StatusCode ≠ 404 :=
  ⟨_, _, _, _, _, rfl, rfl, by decide, rfl, rfl, rfl, by decide⟩

theorem respond_wired (h1 h2 : HandlerFunc) (env : Env) (r : Request) (s : server)
    (sent : List SMS) :
    (r.Path = "/fax/receive" →
      respond (ServeMux.ServeHTTP [("/fax/receive", h1), ("/fax/received", h2)]) env r s sent =
        respond h1 env r s sent) ∧
    (r.Path = "/fax/received" →
      respond (ServeMux.ServeHTTP [("/fax/receive", h1), ("/fax/received", h2)]) env r s sent =
        respond h2 env r s sent) := by
  constructor
  · intro hp
    simp only [respond, (ServeHTTP_wired h1 h2 env r _).1 hp]
  · intro hp
    simp only [respond, (ServeHTTP_wired h1 h2 env r _).2 hp]

/-- C5, amended: on the mux that `run` hands to the listener, a request whose method is
not POST and whose path is `/fax/receive` or `/fax/received` is answered 404 with an
empty body, for every server state, environment and message history, hence whatever
`to`, the origin signature, the directory and the transport are, whenever it reaches
the endpoint handler: that is when no basic-auth wrapper is installed (the configured
user name or password is empty) or the request carries exactly the configured
credentials. When the wrapper is installed and the request does not carry the
configured credentials, the answer is the 401 challenge instead. In both cases no
message is sent and the directory is untouched. -/
theorem C5_nonPost_amended (env : Env) (s0 s1 : server) (res : RunResult) (mux : ServeMux)
    (r : Request) (s : server) (sent : List SMS)
    (hrun : s0.run env = some (s1, res)) (hmux : res.mux = some mux)
    (hm : r.Method ≠ "POST")
    (hpath : r.Path = "/fax/receive" ∨ r.Path = "/fax/received") :
    ((s0.cfg.HTTPUser = "" ∨ s0.cfg.HTTPPwd = "" ∨
        r.BasicAuth = some (s0.cfg.HTTPUser, s0.cfg.HTTPPwd)) →
      ∃ s2, respond (ServeMux.ServeHTTP mux) env r s sent =
          some (s2, { StatusCode := 404, Header := [], Body := "" }, sent) ∧
        s2.acnts = s.acnts) ∧
    ((s0.cfg.HTTPUser ≠ "" ∧ s0.cfg.HTTPPwd ≠ "" ∧
        r.BasicAuth ≠ some (s0.cfg.HTTPUser, s0.cfg.HTTPPwd)) →
      ∃ s2, respond (ServeMux.ServeHTTP mux) env r s sent =
          some (s2, { StatusCode := 401,
                      Header := [("WWW-Authenticate", "Basic realm=\"faxme\"")],
                      Body := "Unauthorised.\n" }, sent) ∧
        s2.acnts = s.acnts) := by
  rw [run_mux env s0 s1 res mux hrun hmux]
  by_cases hup : s0.cfg.HTTPUser = "" ∨ s0.cfg.HTTPPwd = ""
  · simp only [hup, if_true]
    constructor
    · intro _
      rcases hpath with hp | hp
      · rw [(respond_wired _ _ env r s sent).1 hp]
        exact serveFaxReceive_nonPost env r s sent hm
      · rw [(respond_wired _ _ env r s sent).2 hp]
        exact serveFaxReceived_nonPost env r s sent hm
    · rintro ⟨hu, hp, -⟩
      rcases hup with h | h
      · exact absurd h hu
      · exact absurd h hp
  · simp only [hup, if_false]
    constructor
    · intro hc
      have hb : r.BasicAuth = some (s0.cfg.HTTPUser, s0.cfg.HTTPPwd) := by
        rcases hc with h | h | h
        · exact absurd (Or.inl h) hup
        · exact absurd (Or.inr h) hup
        · exact h
      rcases hpath with hp | hp
      · rw [(respond_wired _ _ env r s sent).1 hp, respond_basicAuth_pass _ _ _ env r s sent hb]
        exact serveFaxReceive_nonPost env r s sent hm
      · rw [(respond_wired _ _ env r s sent).2 hp, respond_basicAuth_pass _ _ _ env r s sent hb]
        exact serveFaxReceived_nonPost env r s sent hm
    · rintro ⟨-, -, hb⟩
      rcases hpath with hp | hp
      · rw [(respond_wired _ _ env r s sent).1 hp]
        exact respond_basicAuth_fail _ _ _ env r s sent hb
      · rw [(respond_wired _ _ env r s sent).2 hp]
        exact respond_basicAuth_fail _ _ _ env r s sent hb

/-- C5, amended, at a configuration with credentials and a GET that carries them. -/
theorem C5_nonPost_amended_witness :
    ∃ s2, respond (ServeMux.ServeHTTP
          [("/fax/receive", basicAuth serveFaxReceive "user" "secret" "faxme"),
           ("/fax/received", basicAuth serveFaxReceived "user" "secret" "faxme")])
        sampleEnv sampleGetAuth sampleServer [] =
          some (s2, { StatusCode := 404, Header := [], Body := "" }, []) ∧
        s2.acnts = sampleServer.acnts :=
  (C5_nonPost_amended sampleEnv (newServer sampleConfig) _ _ _ sampleGetAuth sampleServer []
    rfl rfl (by decide) (Or.inr rfl)).1 (Or.inr (Or.inr rfl))

theorem loadAccounts_eq (env : Env) (s : server) (src : Accounts)
    (hfile : s.cfg.AccountsFile ≠ "" → ReadFile env.fs s.cfg.AccountsFile = some (.ok src))
    (hnofile : s.cfg.AccountsFile = "" → src = NewAccounts) :
    s.loadAccounts env =
      some ({ s with acnts := some (if s.cfg.FaxNumber ≠ "" ∧ s.cfg.SMSNumber ≠ "" then
                                      src.Add s.cfg.FaxNumber [s.cfg.SMSNumber]
                                    else src) }, none) := by
  unfold server.loadAccounts
  by_cases hf : s.cfg.AccountsFile = ""
  · simp [hf, hnofile hf]
  · simp [hf, hfile hf]

/-- C6: whenever `loadAccounts` returns, an error return leaves the server exactly as
it was, so every lookup answers as before; a return without error leaves a server that
differs from the old one only in the directory, and the new directory is the one that
the same load installs from any other server state with the same configuration, in
particular from a server that holds no directory yet: nothing of the old snapshot
survives. -/
theorem C6_refresh_atomicity (env : Env) (s s1 : server) (e : Option String)
    (h : s.loadAccounts env = some (s1, e)) :
    (e ≠ none → s1 = s ∧ ∀ f, s1.findAccount f = s.findAccount f) ∧
    (e = none →
      ∃ d, s1 = { s with acnts := some d } ∧
        (∀ f, s1.findAccount f = some (d.Find f)) ∧
        ∀ t : server, t.cfg = s.cfg →
          t.loadAccounts env = some ({ t with acnts := some d }, none)) := by
  rcases loadAccounts_cases env s with h0 | ⟨err, h1⟩ | ⟨d, h2⟩
  · rw [h0] at h; simp at h
  · rw [h1] at h
    simp only [Option.some.injEq, Prod.mk.injEq] at h
    obtain ⟨hs, he⟩ := h
    subst hs
    subst he
    exact ⟨fun _ => ⟨rfl, fun _ => rfl⟩, fun hn => by simp at hn⟩
  · rw [h2] at h
    simp only [Option.some.injEq, Prod.mk.injEq] at h
    obtain ⟨hs, he⟩ := h
    subst hs
    subst he
    refine ⟨fun hn => absurd rfl hn, fun _ => ⟨d, rfl, fun _ => rfl, fun t ht => ?_⟩⟩
    unfold server.loadAccounts at h2 ⊢
    rw [ht]
    generalize (if s.cfg.AccountsFile ≠ "" then ReadFile env.fs s.cfg.AccountsFile
      else some (.ok NewAccounts)) = rd at h2 ⊢
    rcases rd with _ | (err | acnts)
    · simp at h2
    · simp at h2
    · simp only [Option.some.injEq, Prod.mk.injEq, and_true] at h2 ⊢
      have hd := congrArg server.acnts h2
      simp only [Option.some.injEq] at hd
      rw [hd]

/-- C6 at a refresh whose accounts file cannot be read, and at a successful refresh of
a server whose old directory holds an account that the file does not have: after it
that account is no longer found. -/
theorem C6_refresh_atomicity_witness :
    ((some "open accounts.json: no such file or directory" ≠ none →
        sampleServer = sampleServer ∧
          ∀ f, sampleServer.findAccount f = sampleServer.findAccount f) ∧
      (some "open accounts.json: no such file or directory" = none →
        ∃ d, sampleServer = { sampleServer with acnts := some d } ∧
          (∀ f, sampleServer.findAccount f = some (d.Find f)) ∧
          ∀ t : server, t.cfg = sampleServer.cfg →
            t.loadAccounts failingEnv = some ({ t with acnts := some d }, none))) ∧
    (∃ d, ({ staleServer with acnts := some sampleDirectory } : server) =
          { staleServer with acnts := some d } ∧
        (∀ f, ({ staleServer with acnts := some sampleDirectory } : server).findAccount f =
          some (d.Find f)) ∧
        ∀ t : server, t.cfg = staleServer.cfg →
          t.loadAccounts sampleEnv = some ({ t with acnts := some d }, none)) ∧
    (staleServer.findAccount "10000000000").isSome = true ∧
    ({ staleServer with acnts := some sampleDirectory } : server).findAccount "10000000000" =
      some none :=
  ⟨C6_refresh_atomicity failingEnv sampleServer sampleServer
      (some "open accounts.json: no such file or directory") rfl,
    (C6_refresh_atomicity sampleEnv staleServer
      { staleServer with acnts := some sampleDirectory } none rfl).2 rfl,
    rfl, by decide⟩

/-- C8: when the accounts file, if one is configured, reads as the directory `src`
(and `src` is the empty directory when none is configured), `loadAccounts` returns
without error and installs a directory `d` such that: if the configured fax number and
SMS number are both non-empty, `Find` of the configured fax number is the account with
that fax number and the single contact the configured SMS number, whatever `src` holds
for it, and `Find` of every other fax number is as in `src`; if either is empty, `d`
answers every `Find` as `src` does; and with no accounts file configured the only
account `d` can hold is that operator account. -/
theorem C8_synthetic_account (env : Env) (s : server) (src : Accounts)
    (hfile : s.cfg.AccountsFile ≠ "" → ReadFile env.fs s.cfg.AccountsFile = some (.ok src))
    (hnofile : s.cfg.AccountsFile = "" → src = NewAccounts) :
    ∃ d, s.loadAccounts env = some ({ s with acnts := some d }, none) ∧
      ((s.cfg.FaxNumber ≠ "" ∧ s.cfg.SMSNumber ≠ "") →
        d.Find s.cfg.FaxNumber =
            some { FaxNumber := s.cfg.FaxNumber, Contacts := [s.cfg.SMSNumber] } ∧
          ∀ f, f ≠ s.cfg.FaxNumber → d.Find f = src.Find f) ∧
      ((s.cfg.FaxNumber = "" ∨ s.cfg.SMSNumber = "") → ∀ f, d.Find f = src.Find f) ∧
      (s.cfg.AccountsFile = "" → ∀ f a, d.Find f = some a →
        s.cfg.FaxNumber ≠ "" ∧ s.cfg.SMSNumber ≠ "" ∧ f = s.cfg.FaxNumber ∧
          a = { FaxNumber := s.cfg.FaxNumber, Contacts := [s.cfg.SMSNumber] }) := by
  refine ⟨_, loadAccounts_eq env s src hfile hnofile, ?_, ?_, ?_⟩
  · intro hboth
    simp only [hboth, ne_eq, not_false_eq_true, and_self, if_true]
    refine ⟨by simp [Accounts.Find, Accounts.Add, Accounts.store], fun f hf => ?_⟩
    simp [Accounts.Find, Accounts.Add, Accounts.store, hf]
  · intro hone f
    have hnot : ¬ (s.cfg.FaxNumber ≠ "" ∧ s.cfg.SMSNumber ≠ "") := by
      rintro ⟨h1, h2⟩
      rcases hone with h | h
      · exact h1 h
      · exact h2 h
    simp only [hnot, if_false]
  · intro hno f a hfa
    rw [hnofile hno] at hfa
    by_cases hboth : s.cfg.FaxNumber ≠ "" ∧ s.cfg.SMSNumber ≠ ""
    · simp only [hboth, ne_eq, not_false_eq_true, and_self, if_true, Accounts.Find,
        Accounts.Add, Accounts.store, NewAccounts] at hfa
      by_cases hk : f = s.cfg.FaxNumber
      · simp only [hk, if_true, Option.some.injEq] at hfa
        exact ⟨hboth.1, hboth.2, hk, hfa.symm⟩
      · simp [hk] at hfa
    · simp only [hboth, if_false, Accounts.Find, NewAccounts] at hfa
      simp at hfa

/-- C7, counterexample to the claim as stated: with Twilio settings, credentials and a
TLS certificate configured, the TLS key left empty and no unsafe override, the initial
load succeeds and `run` does not return an error of its own: it reaches the TLS
listener, to which it hands the empty key file. -/
theorem C7_startup_counterexample :
    certOnlyConfig.TwilioSID ≠ "" ∧ certOnlyConfig.TwilioToken ≠ "" ∧
    certOnlyConfig.Unsafe = false ∧ certOnlyConfig.TLSKeyFile = "" ∧
    ((newServer certOnlyConfig).loadAccounts sampleEnv).map Prod.snd = some none ∧
    ∃ s1 mux, (newServer certOnlyConfig).run sampleEnv =
        some (s1, .ListenAndServeTLS "127.0.0.1:7500" "cert.pem" "" mux) ∧
      (RunResult.ListenAndServeTLS "127.0.0.1:7500" "cert.pem" "" mux).listens = true :=
  ⟨by decide, by decide, rfl, rfl, rfl, _, _, rfl, rfl⟩

/-- C7, amended: for a configuration with a Twilio SID and token whose initial load
succeeds, if the unsafe override is not set and either the HTTP user name or the HTTP
password is empty, or neither the TLS certificate file nor the TLS key file is
configured, then `run` returns an error and reaches neither listener. -/
theorem C7_startup_amended (env : Env) (s0 : server) (src : Accounts)
    (hsid : s0.cfg.TwilioSID ≠ "") (htoken : s0.cfg.TwilioToken ≠ "")
    (hfile : s0.cfg.AccountsFile ≠ "" →
      ReadFile env.fs s0.cfg.AccountsFile = some (.ok src))
    (hnofile : s0.cfg.AccountsFile = "" → src = NewAccounts)
    (hoverride : s0.cfg.Unsafe = false)
    (hmissing : (s0.cfg.HTTPUser = "" ∨ s0.cfg.HTTPPwd = "") ∨
      (s0.cfg.TLSCertFile = "" ∧ s0.cfg.TLSKeyFile = "")) :
    ∃ s1 err, s0.run env = some (s1, .error err) ∧
      (RunResult.error err).listens = false := by
  have hload := loadAccounts_eq env
    ((({ s0 with logid := wrapInt64 (s0.logid + 1) } : server).Info "faxme server started"
      [.int64 "log_id" (wrapInt64 (s0.logid + 1))]).Info "load accounts"
      [.str "every" "10s", .str "path" s0.cfg.AccountsFile]) src hfile hnofile
  simp only [server.run, server.nextLogID]
  simp only [server.Info] at hload ⊢
  simp only [hsid, htoken, if_false, hload]
  by_cases hup : s0.cfg.HTTPUser = "" ∨ s0.cfg.HTTPPwd = ""
  · simp only [hup, if_true, hoverride, Bool.false_eq_true, not_false_eq_true]
    exact ⟨_, _, rfl, rfl⟩
  · have htls : s0.cfg.TLSCertFile = "" ∧ s0.cfg.TLSKeyFile = "" := by
      rcases hmissing with h | h
      · exact absurd h hup
      · exact h
    simp only [hup, if_false, htls, and_self, if_true, hoverride, Bool.false_eq_true,
      not_false_eq_true]
    exact ⟨_, _, rfl, rfl⟩

/-- C7, amended, at a configuration with credentials and no TLS material. -/
theorem C7_startup_amended_witness :
    ∃ s1 err, (newServer noTLSConfig).run sampleEnv = some (s1, .error err) ∧
      (RunResult.error err).listens = false :=
  C7_startup_amended sampleEnv (newServer noTLSConfig) sampleDirectory (by decide) (by decide)
    (fun _ => rfl) (fun h => absurd h (by decide)) rfl (Or.inr ⟨rfl, rfl⟩)

/-- C9, the code at a failing refresh: when the accounts file cannot be read,
`loadAccounts` returns the error, and the tick of the refresh goroutine, which drops
that result, leaves the server as it was: the directory is kept and the log holds no
new entry. -/
theorem C9_refresh_failure_not_logged :
    sampleServer.loadAccounts failingEnv =
        some (sampleServer, some "open accounts.json: no such file or directory") ∧
      sampleServer.refreshTick failingEnv = some sampleServer ∧
      (sampleServer.refreshTick failingEnv).map server.log = some sampleServer.log :=
  ⟨rfl, rfl, rfl⟩

/-- C8 at an accounts file that already holds a record for the operator's fax number. -/
theorem C8_synthetic_account_witness :
    ∃ d, operatorServer.loadAccounts sampleEnv =
        some ({ operatorServer with acnts := some d }, none) ∧
      ((operatorServer.cfg.FaxNumber ≠ "" ∧ operatorServer.cfg.SMSNumber ≠ "") →
        d.Find operatorServer.cfg.FaxNumber =
            some { FaxNumber := operatorServer.cfg.FaxNumber,
                   Contacts := [operatorServer.cfg.SMSNumber] } ∧
          ∀ f, f ≠ operatorServer.cfg.FaxNumber → d.Find f = sampleDirectory.Find f) ∧
      ((operatorServer.cfg.FaxNumber = "" ∨ operatorServer.cfg.SMSNumber = "") →
        ∀ f, d.Find f = sampleDirectory.Find f) ∧
      (operatorServer.cfg.AccountsFile = "" → ∀ f a, d.Find f = some a →
        operatorServer.cfg.FaxNumber ≠ "" ∧ operatorServer.cfg.SMSNumber ≠ "" ∧
          f = operatorServer.cfg.FaxNumber ∧
          a = { FaxNumber := operatorServer.cfg.FaxNumber,
                Contacts := [operatorServer.cfg.SMSNumber] }) :=
  C8_synthetic_account sampleEnv operatorServer sampleDirectory (fun _ => rfl)
    (fun h => absurd h (by decide))

end Faxme
